import Mathlib

/-! # Ollama relay: request and response translation, streaming relay, single-shot handler

A shallow embedding of `controller/relay-ollama.go`.

* Go strings that travel on the wire (the upstream body, scanner tokens, the argument of
  `json.Unmarshal`) are lists of bytes; `len` is `List.length`.
* Go strings that the code only copies or concatenates (message contents, response fragments,
  encoded JSON, event payloads) are `String`.
* `json.Unmarshal`, `json.Marshal`, `common.GetTimestamp` and `common.GetUUID` are library or
  collaborator behaviour; they are fields of `Env`, so every theorem holds for every decoder,
  encoder, clock and id.
* Effects are explicit state: `Context` records what the handler did to the gin context,
  `Body` counts the calls of `Close`.
* The client's close notification is a parameter of the streaming handler: `ginStream` is the
  loop of `gin.Context.Stream`, which returns when the step function returns false or when it
  finds that the notification has fired. `connected` is the client that never leaves.
-/

set_option autoImplicit false

namespace Ollama

/-! ## Data model -/

abbrev Byte := UInt8

abbrev Bytes := List Byte

/-- The line terminator `"\n"`. -/
def newline : Byte := 10

/-- Modelled from the spec: the declaration of `Message` is not in the source file; a message has
a role tag and a text content, the two fields the source reads and writes. -/
structure Message where
  Role : String
  Content : String
deriving DecidableEq

/-- A Go value of interface type `any`, as far as the verb `%s` can tell values apart: the nil
interface, a string, or any other value together with what `%s` prints for it. -/
inductive AnyValue where
  | null
  | str (s : String)
  | other (printed : String)
deriving DecidableEq

/-- The result of `fmt.Sprintf("%s", v)`. -/
def sprintfS : AnyValue → String
  | .null => "%!s(<nil>)"
  | .str s => s
  | .other printed => printed

/-- Modelled from the spec: the declaration of `GeneralOpenAIRequest` is not in the source file;
it carries a model identifier, an ordered sequence of messages, a free prompt value and the
streaming flag, the four fields the source reads. -/
structure GeneralOpenAIRequest where
  Model : String
  Messages : List Message
  Prompt : AnyValue
  Stream : Bool
deriving DecidableEq

structure OllamaChatRequest where
  Model : String
  Prompt : String
  System : String
  Template : String
  Context : List Int
  Stream : Option Bool
  Options : List (String × AnyValue)
deriving DecidableEq

/-- The backend response unit; times and durations are integers (nanoseconds). -/
structure OllamaChatResponse where
  Model : String
  CreatedAt : Int
  Response : String
  Done : Bool
  Context : List Int
  TotalDuration : Int
  LoadDuration : Int
  PromptEvalCount : Int
  PromptEvalDuration : Int
  EvalCount : Int
  EvalDuration : Int
deriving DecidableEq

/-- Modelled from the spec: the declaration of `Usage` is not in the source file; usage accounting
is prompt tokens, completion tokens and their total. -/
structure Usage where
  PromptTokens : Int
  CompletionTokens : Int
  TotalTokens : Int
deriving DecidableEq

/-- Modelled from the spec: the declaration of `OpenAITextResponseChoice` is not in the source
file; a choice has an index, a full message and a finish-reason tag. -/
structure OpenAITextResponseChoice where
  Index : Int
  Message : Message
  FinishReason : String
deriving DecidableEq

/-- Modelled from the spec: the declaration of `OpenAITextResponse` is not in the source file; it
has an object-type tag, a creation timestamp, choices and usage accounting (and the id that the
source leaves at its zero value). -/
structure OpenAITextResponse where
  Id : String
  Object : String
  Created : Int
  Choices : List OpenAITextResponseChoice
  Usage : Usage
deriving DecidableEq

structure Delta where
  Content : String
deriving DecidableEq

/-- Modelled from the spec: the declaration of `ChatCompletionsStreamResponseChoice` is not in the
source file; a stream choice has a delta (partial text) and an optional finish-reason tag, a
pointer in Go, here an `Option`. -/
structure ChatCompletionsStreamResponseChoice where
  Delta : Delta
  FinishReason : Option String
deriving DecidableEq

/-- Modelled from the spec: the declaration of `ChatCompletionsStreamResponse` is not in the source
file; it has a correlation id, an object-type tag, a creation timestamp, a model identifier and
choices. -/
structure ChatCompletionsStreamResponse where
  Id : String
  Object : String
  Created : Int
  Model : String
  Choices : List ChatCompletionsStreamResponseChoice
deriving DecidableEq

/-- Modelled from the spec: the package variable `stopFinishReason` is not in the source file; the
finish-reason tag of a terminal chunk has the value "stop". -/
def stopFinishReason : String := "stop"

/-- Modelled from the spec: the declaration of `OpenAIErrorWithStatusCode` is not in the source
file; an error envelope carries a human-readable message, a machine-readable code string and an
HTTP status code. -/
structure OpenAIErrorWithStatusCode where
  Message : String
  Code : String
  StatusCode : Int
deriving DecidableEq

/-- Modelled from the spec: `errorWrapper` is not in the source file; it wraps an error with a
stable code and an HTTP status. A Go `error` is represented by its message. -/
def errorWrapper (err : String) (code : String) (statusCode : Int) : OpenAIErrorWithStatusCode :=
  { Message := err, Code := code, StatusCode := statusCode }

/-- The constant `http.StatusInternalServerError`. -/
def StatusInternalServerError : Int := 500

/-- The collaborators of the relay: `json.Unmarshal` into a zero `OllamaChatResponse`, the JSON
encoders behind `json.Marshal`, `common.GetTimestamp` (its value at the k-th call made by the
handler) and `common.GetUUID`. -/
structure Env where
  unmarshal : Bytes → Except String OllamaChatResponse
  encodeChunk : ChatCompletionsStreamResponse → String
  encodeText : OpenAITextResponse → String
  timestamp : Nat → Int
  uuid : String

/-- The call `json.Marshal(v)` for a value whose type holds only strings, integers, booleans and
slices and pointers of such: `encoding/json` has no failing case for these (invalid UTF-8 is
replaced, not rejected), so the error result is always nil. -/
def jsonMarshal {α : Type} (encode : α → String) (v : α) : Except String String :=
  .ok (encode v)

/-! ## Request Transformer -/

def requestOpenAI2Ollama (request : GeneralOpenAIRequest) : OllamaChatRequest :=
  let req : OllamaChatRequest :=
    { Model := request.Model
      Prompt := sprintfS request.Prompt
      System := ""
      Template := ""
      Context := []
      Stream := some request.Stream
      Options := [] }
  request.Messages.foldl
    (fun req message =>
      if message.Role = "system" then { req with System := message.Content }
      else if message.Role = "user" then { req with Prompt := message.Content }
      else req)
    req

/-! ## Response Transformer and Stream Chunk Transformer

`now` is the value `common.GetTimestamp()` returns at the call inside the function. -/

def responseOllama2OpenAI (now : Int) (response : OllamaChatResponse) : OpenAITextResponse :=
  let fullTextResponse : OpenAITextResponse :=
    { Id := ""
      Object := "chat.completion"
      Created := now
      Choices := []
      Usage := { PromptTokens := 0, CompletionTokens := 0, TotalTokens := 0 } }
  let FinishReason := if response.Done = true then "stop" else ""
  let choice : OpenAITextResponseChoice :=
    { Index := 0
      Message := { Role := "assistant", Content := response.Response }
      FinishReason := FinishReason }
  { fullTextResponse with Choices := fullTextResponse.Choices ++ [choice] }

def streamResponseOllama2OpenAI (now : Int) (OllamaResponse : OllamaChatResponse) :
    ChatCompletionsStreamResponse :=
  let choice : ChatCompletionsStreamResponseChoice :=
    { Delta := { Content := "" }, FinishReason := none }
  let choice := if OllamaResponse.Done then { choice with FinishReason := some stopFinishReason }
    else choice
  let choice := { choice with Delta := { Content := OllamaResponse.Response } }
  { Id := ""
    Object := "chat.completion.chunk"
    Created := now
    Model := OllamaResponse.Model
    Choices := [choice] }

/-! ## The upstream body and the client side -/

/-- The upstream response body: the bytes its reader delivers, the error that ends the reading
(none for `io.EOF`), the error `Close` returns (none for nil), and the number of times `Close`
has been called. -/
structure Body where
  data : Bytes
  readErr : Option String
  closeErr : Option String
  closeCalls : Nat
deriving DecidableEq

/-- The call `resp.Body.Close()`: the error it returns and the body afterwards. -/
def Body.Close (b : Body) : Option String × Body :=
  (b.closeErr, { b with closeCalls := b.closeCalls + 1 })

/-- The call `io.ReadAll(resp.Body)`: the bytes read and the error, nil when the reader ended
with `io.EOF`. -/
def ioReadAll (b : Body) : Bytes × Option String :=
  (b.data, b.readErr)

/-- The upstream `http.Response`, as far as the handlers use it. -/
structure Response where
  StatusCode : Int
  Body : Body
deriving DecidableEq

/-- What the handlers do to the gin context: the response headers set, the status written by
`WriteHeader`, the byte strings passed to `Writer.Write`, and the payloads of the events passed
to `c.Render(-1, common.CustomEvent ...)`, oldest first. -/
structure Context where
  headers : List (String × String)
  status : Option Int
  written : List String
  events : List String
deriving DecidableEq

/-- The call `c.Writer.Header().Set(key, value)`. -/
def Context.setHeader (c : Context) (key value : String) : Context :=
  { c with headers := c.headers.filter (fun kv => kv.1 ≠ key) ++ [(key, value)] }

/-- The call `c.Writer.WriteHeader(code)`. -/
def Context.WriteHeader (c : Context) (code : Int) : Context :=
  { c with status := some code }

/-- The call `c.Writer.Write(data)`; the handler discards its results. -/
def Context.Write (c : Context) (data : String) : Context :=
  { c with written := c.written ++ [data] }

/-- The call `c.Render(-1, common.CustomEvent ...)` with the given `Data`. -/
def Context.Render (c : Context) (data : String) : Context :=
  { c with events := c.events ++ [data] }

/-- Modelled from the spec: `setEventStreamHeaders` is not in the source file; it sets the
standard event-stream headers (no caching, connection kept alive) before the first event. -/
def setEventStreamHeaders (c : Context) : Context :=
  ((c.setHeader "Content-Type" "text/event-stream").setHeader "Cache-Control" "no-cache").setHeader
    "Connection" "keep-alive"

/-! ## The line scanner -/

/-- The call `strings.Index(string(data), sep)` for a one-byte separator: the index of its first
occurrence, `none` where Go returns -1. -/
def stringsIndex (data : Bytes) (sep : Byte) : Option Nat :=
  match data with
  | [] => none
  | b :: rest => if b = sep then some 0 else (stringsIndex rest sep).map (· + 1)

/-- The split function the handler installs with `scanner.Split`: the number of bytes to advance
and the token, `none` for a nil token. -/
def splitFunc (data : Bytes) (atEOF : Bool) : Nat × Option Bytes :=
  if atEOF && data.length == 0 then (0, none)
  else
    match stringsIndex data newline with
    | some i => (i + 1, some (data.take i))
    | none => if atEOF then (data.length, some data) else (0, none)

/-- The constant `bufio.MaxScanTokenSize`, the largest buffer a scanner made by `bufio.NewScanner`
allocates. -/
def MaxScanTokenSize : Nat := 64 * 1024

/-- One call of `scanner.Scan()` on a reader that still has `pending` to deliver before it ends:
the token and the input left, or `none` when `Scan` returns false.

`bufio.Scanner` calls the split function on what it has buffered of the pending input and reads
more whenever the split function returns no token. Its buffer grows up to `MaxScanTokenSize`
bytes; once that many pending bytes are buffered and still yield no token, `Scan` stops with
`ErrTooLong`. The end of the reader (end of input or a read error alike) is seen, and `atEOF`
passed as true, only when the whole pending input is in the buffer with room to spare. The split
function above returns the same token on every buffered piece that holds the first line
terminator, so the outcome is that of the call on the largest buffer. The reader is taken to
report its end in a read of its own, after its last bytes; only for an unterminated last line
of exactly `MaxScanTokenSize` bytes does that matter. -/
def Scanner.Scan (pending : Bytes) : Option (Bytes × Bytes) :=
  let buf := pending.take MaxScanTokenSize
  let atEOF := decide (pending.length < MaxScanTokenSize)
  match splitFunc buf atEOF with
  | (advance, some token) => some (token, pending.drop advance)
  | (_, none) => none

/-- A value sent on one of the two unbuffered channels of the handler. -/
inductive Msg where
  | dataChan (data : Bytes)
  | stopChan
deriving DecidableEq

/-- The scanning goroutine: the sequence of values it sends, in order. Each send blocks until the
emitting loop receives it, so the emitting loop receives exactly this sequence; at any moment at
most one of the two channels has a sender waiting, which makes the `select` deterministic.
The loop runs once per call of `Scan`; `fuel` bounds the number of calls and `none` means the
bound was too small. -/
def scanGoroutine : Nat → Bytes → Option (List Msg)
  | 0, _ => none
  | fuel + 1, pending =>
    match Scanner.Scan pending with
    | none => some [Msg.stopChan]
    | some (data, rest) =>
      if data.length < 5 then scanGoroutine fuel rest
      else (scanGoroutine fuel rest).map (fun sent => Msg.dataChan data :: sent)

/-! ## Streaming Relay Engine -/

/-- The variables the emitting closure works on: the gin context, the captured `responseText`,
the number of calls of `common.GetTimestamp` made so far, and the messages passed to
`common.SysError`. -/
structure RelayState where
  c : Context
  responseText : String
  calls : Nat
  sysLog : List String
deriving DecidableEq

/-- The function passed to `c.Stream`, run on the value its `select` receives: the state
afterwards and the boolean it returns. -/
def streamStep (env : Env) (id : String) (st : RelayState) : Msg → RelayState × Bool
  | .dataChan data =>
    match env.unmarshal data with
    | .error err =>
      ({ st with sysLog := st.sysLog ++ ["error unmarshalling stream response: " ++ err] }, true)
    | .ok OllamaResponse =>
      let response := streamResponseOllama2OpenAI (env.timestamp st.calls) OllamaResponse
      let st := { st with calls := st.calls + 1 }
      let st :=
        match response.Choices with
        | choice :: _ => { st with responseText := st.responseText ++ choice.Delta.Content }
        | [] => st
      let response := { response with Id := id }
      match jsonMarshal env.encodeChunk response with
      | .error err =>
        ({ st with sysLog := st.sysLog ++ ["error marshalling stream response: " ++ err] }, true)
      | .ok jsonResponse => ({ st with c := st.c.Render ("data: " ++ jsonResponse) }, true)
  | .stopChan => ({ st with c := st.c.Render "data: [DONE]" }, false)

/-- The loop of `gin.Context.Stream`: before each call of the step function it looks at the
client's close notification and returns when that has fired; otherwise it calls the step
function and returns when that returns false. `clientGone k` tells whether the notification has
fired when the loop looks at it for the k-th time (counting from 0). Each call of the step
function receives the next value the scanning goroutine sends; `none` means the loop waits for
a value that is never sent. -/
def ginStream {σ : Type} (clientGone : Nat → Bool) (step : σ → Msg → σ × Bool) :
    Nat → σ → List Msg → Option σ
  | k, st, [] => if clientGone k then some st else none
  | k, st, m :: ms =>
    if clientGone k then some st
    else
      match step st m with
      | (st, true) => ginStream clientGone step (k + 1) st ms
      | (st, false) => some st

/-- The client that stays connected: its close notification never fires. -/
def connected : Nat → Bool :=
  fun _ => false

/-- The client that leaves after `n` calls of the step function have started: the loop finds the
notification not fired before each of its first `n` calls, and fired from then on. -/
def leavesAt (n : Nat) : Nat → Bool :=
  fun k => decide (n ≤ k)

/-- What `ollamaStreamHandler` leaves behind when it returns: its two results, the gin context,
the upstream body and the log. -/
structure StreamOutcome where
  err : Option OpenAIErrorWithStatusCode
  text : String
  c : Context
  body : Body
  sysLog : List String
deriving DecidableEq

/-- The streaming handler, for a client whose close notification behaves as `clientGone` says;
`none` would mean that it does not return. -/
def ollamaStreamHandler (clientGone : Nat → Bool) (env : Env) (c : Context) (resp : Response) :
    Option StreamOutcome :=
  match scanGoroutine (resp.Body.data.length + 1) resp.Body.data with
  | none => none
  | some sent =>
    let c := setEventStreamHeaders c
    let id := env.uuid
    match ginStream clientGone (streamStep env id) 0
        { c := c, responseText := "", calls := 0, sysLog := [] } sent with
    | none => none
    | some st =>
      match resp.Body.Close with
      | (some err, body) =>
        some
          { err := some (errorWrapper err "close_response_body_failed" StatusInternalServerError)
            text := ""
            c := st.c
            body := body
            sysLog := st.sysLog }
      | (none, body) =>
        some { err := none, text := st.responseText, c := st.c, body := body, sysLog := st.sysLog }

/-! ## Single-shot Handler -/

/-- What `ollamaHandler` leaves behind when it returns: its two results (a nil usage pointer is
`none`), the gin context and the upstream body. -/
structure HandlerOutcome where
  err : Option OpenAIErrorWithStatusCode
  usage : Option Usage
  c : Context
  body : Body
deriving DecidableEq

def ollamaHandler (env : Env) (c : Context) (resp : Response) : HandlerOutcome :=
  match ioReadAll resp.Body with
  | (_, some err) =>
    { err := some (errorWrapper err "read_response_body_failed" StatusInternalServerError)
      usage := none
      c := c
      body := resp.Body }
  | (responseBody, none) =>
    match resp.Body.Close with
    | (some err, body) =>
      { err := some (errorWrapper err "close_response_body_failed" StatusInternalServerError)
        usage := none
        c := c
        body := body }
    | (none, body) =>
      match env.unmarshal responseBody with
      | .error err =>
        { err := some
            (errorWrapper err "unmarshal_response_body_failed" StatusInternalServerError)
          usage := none
          c := c
          body := body }
      | .ok ollamaResponse =>
        let fullTextResponse := responseOllama2OpenAI (env.timestamp 0) ollamaResponse
        match jsonMarshal env.encodeText fullTextResponse with
        | .error err =>
          { err := some
              (errorWrapper err "marshal_response_body_failed" StatusInternalServerError)
            usage := none
            c := c
            body := body }
        | .ok jsonResponse =>
          let c := c.setHeader "Content-Type" "application/json"
          let c := c.WriteHeader resp.StatusCode
          let c := c.Write jsonResponse
          { err := none, usage := some fullTextResponse.Usage, c := c, body := body }

/-! ## The words of the specification

Definitions that follow the specification rather than the code: how a sequence of lines is put
on the wire, which lines are valid, and which events and which text the relay is to produce for
them. -/

/-- The upstream byte stream that carries the given lines, each followed by the line terminator,
and then `tail`, a last line that the end of input cuts off without a terminator (empty when
the stream ends right after a terminator). -/
def wire : List Bytes → Bytes → Bytes
  | [], tail => tail
  | line :: lines, tail => line ++ newline :: wire lines tail

/-- The lines of the stream `wire lines tail`, in order. -/
def linesOf (lines : List Bytes) (tail : Bytes) : List Bytes :=
  if tail = [] then lines else lines ++ [tail]

/-- The unit a line stands for: the line has at least 5 bytes and decodes as an
`OllamaChatResponse`. -/
def validUnit (env : Env) (line : Bytes) : Option OllamaChatResponse :=
  if line.length < 5 then none
  else
    match env.unmarshal line with
    | .ok unit => some unit
    | .error _ => none

/-- The units of the valid lines, in input order. -/
def validUnits (env : Env) (lines : List Bytes) : List OllamaChatResponse :=
  lines.filterMap (validUnit env)

/-- The chunk event for the k-th valid unit of a stream: `data: ` followed by the JSON of
`streamResponseOllama2OpenAI` of the unit, carrying the stream id. -/
def chunkEvent (env : Env) (k : Nat) (unit : OllamaChatResponse) : String :=
  "data: " ++
    env.encodeChunk { streamResponseOllama2OpenAI (env.timestamp k) unit with Id := env.uuid }

/-- The events the specification asks for: one chunk event per valid line, in input order, then
one `data: [DONE]`. -/
def claimedEvents (env : Env) (lines : List Bytes) : List String :=
  (validUnits env lines).enum.map (fun p => chunkEvent env p.1 p.2) ++ ["data: [DONE]"]

/-- The text the specification asks for: the response fragments of the valid lines, concatenated
in input order. -/
def claimedText (env : Env) (lines : List Bytes) : String :=
  String.join ((validUnits env lines).map (fun unit => unit.Response))

/-- The usage the specification asks for: prompt tokens from the prompt-eval count, completion
tokens from the eval count, total their sum. -/
def claimedUsage (unit : OllamaChatResponse) : Usage :=
  { PromptTokens := unit.PromptEvalCount
    CompletionTokens := unit.EvalCount
    TotalTokens := unit.PromptEvalCount + unit.EvalCount }

/-! ## Concrete inputs -/

/-- The bytes of an ASCII text. -/
def ascii (s : String) : Bytes :=
  s.toList.map (fun ch => ch.toNat.toUInt8)

/-- The zero value of `OllamaChatResponse`. -/
def zeroUnit : OllamaChatResponse :=
  { Model := ""
    CreatedAt := 0
    Response := ""
    Done := false
    Context := []
    TotalDuration := 0
    LoadDuration := 0
    PromptEvalCount := 0
    PromptEvalDuration := 0
    EvalCount := 0
    EvalDuration := 0 }

/-- The line `\x7b"response":"Hel"\x7d`. -/
def lineHel : Bytes := ascii "\x7b\"response\":\"Hel\"\x7d"

/-- The line `\x7b"response":"lo","done":true,"prompt_eval_count":3,"eval_count":5\x7d`. -/
def lineLo : Bytes :=
  ascii "\x7b\"response\":\"lo\",\"done\":true,\"prompt_eval_count\":3,\"eval_count\":5\x7d"

/-- The line `not json`. -/
def lineNotJson : Bytes := ascii "not json"

/-- A line of 65536 letters x. -/
def lineLong : Bytes := List.replicate MaxScanTokenSize 120

def unitHel : OllamaChatResponse := { zeroUnit with Response := "Hel" }

def unitLo : OllamaChatResponse :=
  { zeroUnit with Response := "lo", Done := true, PromptEvalCount := 3, EvalCount := 5 }

/-- A decoder that agrees with `json.Unmarshal` on the lines used below: the two JSON objects
decode to their units, any text whose first byte is neither an opening brace nor white space is
rejected. -/
def sampleUnmarshal (data : Bytes) : Except String OllamaChatResponse :=
  if data = lineHel then .ok unitHel
  else if data = lineLo then .ok unitLo
  else .error "invalid character"

/-- An encoder for stream chunks that keeps the fields apart; it stands in for `json.Marshal`. -/
def sampleEncodeChunk (r : ChatCompletionsStreamResponse) : String :=
  "id=" ++ r.Id ++ " object=" ++ r.Object ++ " model=" ++ r.Model ++ " choices=" ++
    String.join
      (r.Choices.map fun choice =>
        "[content=" ++ choice.Delta.Content ++ " finish_reason=" ++
          choice.FinishReason.getD "null" ++ "]")

/-- An encoder for full responses that keeps the fields apart; it stands in for
`json.Marshal`. -/
def sampleEncodeText (r : OpenAITextResponse) : String :=
  "id=" ++ r.Id ++ " object=" ++ r.Object ++ " choices=" ++
    String.join
      (r.Choices.map fun choice =>
        "[role=" ++ choice.Message.Role ++ " content=" ++ choice.Message.Content ++
          " finish_reason=" ++ choice.FinishReason ++ "]")

def sampleEnv : Env :=
  { unmarshal := sampleUnmarshal
    encodeChunk := sampleEncodeChunk
    encodeText := sampleEncodeText
    timestamp := fun k => 1700000000 + k
    uuid := "chatcmpl-1" }

/-- A gin context on which nothing has been done yet. -/
def freshContext : Context :=
  { headers := [], status := none, written := [], events := [] }

/-- An upstream response with status 200 whose body delivers `data` and then ends and closes
without error. -/
def okResponse (data : Bytes) : Response :=
  { StatusCode := 200
    Body := { data := data, readErr := none, closeErr := none, closeCalls := 0 } }

/-- The response `okResponse data` whose body fails to close. -/
def closeFailing (data : Bytes) : Response :=
  { StatusCode := 200
    Body := { data := data, readErr := none, closeErr := some "close failed", closeCalls := 0 } }

/-- The response whose body fails while it is read. -/
def readFailing (data : Bytes) : Response :=
  { StatusCode := 200
    Body :=
      { data := data, readErr := some "unexpected EOF", closeErr := none, closeCalls := 0 } }

/-! ## Auxiliary definitions used in the proofs -/

/-- The values the scanning goroutine sends when the scanner delivers the given lines: one on
`dataChan` for every line of at least 5 bytes, then one on `stopChan`. -/
def sentFor (lines : List Bytes) : List Msg :=
  (lines.filter (fun line => ¬ line.length < 5)).map Msg.dataChan ++ [Msg.stopChan]

/-- The state after the emitting closure has received `data` on `dataChan`. -/
def relayData (env : Env) (id : String) (st : RelayState) (data : Bytes) : RelayState :=
  (streamStep env id st (Msg.dataChan data)).1

/-- The state after the emitting closure has received the value on `stopChan`. -/
def relayStop (st : RelayState) : RelayState :=
  { st with c := st.c.Render "data: [DONE]" }

/-- The state in which the emitting loop starts. -/
def relayStart (c : Context) : RelayState :=
  { c := setEventStreamHeaders c, responseText := "", calls := 0, sysLog := [] }

/-- The end of `ollamaStreamHandler`: close the body and return, from the state `fin` in which
the emitting loop ended. -/
def closeAndReturn (body : Body) (fin : RelayState) : StreamOutcome :=
  { err :=
      body.closeErr.map
        (fun err => errorWrapper err "close_response_body_failed" StatusInternalServerError)
    text := if body.closeErr.isSome then "" else fin.responseText
    c := fin.c
    body := { body with closeCalls := body.closeCalls + 1 }
    sysLog := fin.sysLog }

/-! ## Request Transformer: last user message, last system message -/

/-- The body of the loop of `requestOpenAI2Ollama`. -/
theorem requestOpenAI2Ollama_eq_foldl (request : GeneralOpenAIRequest) :
    requestOpenAI2Ollama request =
      request.Messages.foldl
        (fun req message =>
          if message.Role = "system" then { req with System := message.Content }
          else if message.Role = "user" then { req with Prompt := message.Content }
          else req)
        { Model := request.Model
          Prompt := sprintfS request.Prompt
          System := ""
          Template := ""
          Context := []
          Stream := some request.Stream
          Options := [] } :=
  rfl

/-- Messages whose role is not "user" leave the prompt as it is. -/
theorem foldl_prompt_of_no_user (msgs : List Message) (req : OllamaChatRequest)
    (h : ∀ x ∈ msgs, x.Role ≠ "user") :
    (msgs.foldl
        (fun req message =>
          if message.Role = "system" then { req with System := message.Content }
          else if message.Role = "user" then { req with Prompt := message.Content }
          else req)
        req).Prompt = req.Prompt := by
  induction msgs generalizing req with
  | nil => rfl
  | cons m ms ih =>
    have hm : m.Role ≠ "user" := h m (List.mem_cons_self m ms)
    have hms : ∀ x ∈ ms, x.Role ≠ "user" := fun x hx => h x (List.mem_cons_of_mem m hx)
    rw [List.foldl_cons, ih _ hms]
    by_cases hs : m.Role = "system"
    · simp [hs]
    · simp [hs, hm]

/-- Messages whose role is not "system" leave the system text as it is. -/
theorem foldl_system_of_no_system (msgs : List Message) (req : OllamaChatRequest)
    (h : ∀ x ∈ msgs, x.Role ≠ "system") :
    (msgs.foldl
        (fun req message =>
          if message.Role = "system" then { req with System := message.Content }
          else if message.Role = "user" then { req with Prompt := message.Content }
          else req)
        req).System = req.System := by
  induction msgs generalizing req with
  | nil => rfl
  | cons m ms ih =>
    have hm : m.Role ≠ "system" := h m (List.mem_cons_self m ms)
    have hms : ∀ x ∈ ms, x.Role ≠ "system" := fun x hx => h x (List.mem_cons_of_mem m hx)
    rw [List.foldl_cons, ih _ hms]
    by_cases hu : m.Role = "user"
    · simp [hm, hu]
    · simp [hm, hu]

/-- C2: when the message list is `before ++ m :: after` with `m` a user message and no user
message in `after` (so `m` is the last user message in list order), the prompt of the backend
request is the content of `m`, whatever the request's own prompt value and whatever the other
messages are. -/
theorem requestOpenAI2Ollama_prompt_last_user (request : GeneralOpenAIRequest)
    (before after : List Message) (m : Message)
    (hsplit : request.Messages = before ++ m :: after) (hm : m.Role = "user")
    (hlast : ∀ x ∈ after, x.Role ≠ "user") :
    (requestOpenAI2Ollama request).Prompt = m.Content := by
  have hns : m.Role ≠ "system" := by rw [hm]; decide
  rw [requestOpenAI2Ollama_eq_foldl, hsplit, List.foldl_append, List.foldl_cons,
    foldl_prompt_of_no_user after _ hlast]
  simp [hns, hm]

/-- Witness of C2: a request with its own prompt and the messages system, user, assistant, user,
tool; the prompt becomes the content of the second user message. -/
theorem requestOpenAI2Ollama_prompt_last_user_witness :
    (requestOpenAI2Ollama
        { Model := "llama2"
          Messages :=
            [⟨"system", "be brief"⟩, ⟨"user", "first"⟩, ⟨"assistant", "ok"⟩, ⟨"user", "second"⟩,
              ⟨"tool", "noise"⟩]
          Prompt := .str "own prompt"
          Stream := true }).Prompt = "second" :=
  requestOpenAI2Ollama_prompt_last_user _
    [⟨"system", "be brief"⟩, ⟨"user", "first"⟩, ⟨"assistant", "ok"⟩] [⟨"tool", "noise"⟩]
    ⟨"user", "second"⟩ rfl rfl (by decide)

/-- C3: when the message list is `before ++ m :: after` with `m` a system message and no system
message in `after` (so `m` is the last system message in list order), the system field of the
backend request is the content of `m`; when no message has the role "system", the system field
is the empty string. -/
theorem requestOpenAI2Ollama_system_last_system (request : GeneralOpenAIRequest) :
    (∀ (before after : List Message) (m : Message),
        request.Messages = before ++ m :: after → m.Role = "system" →
        (∀ x ∈ after, x.Role ≠ "system") →
        (requestOpenAI2Ollama request).System = m.Content) ∧
      ((∀ x ∈ request.Messages, x.Role ≠ "system") → (requestOpenAI2Ollama request).System = "") := by
  constructor
  · intro before after m hsplit hm hlast
    rw [requestOpenAI2Ollama_eq_foldl, hsplit, List.foldl_append, List.foldl_cons,
      foldl_system_of_no_system after _ hlast]
    simp [hm]
  · intro hnone
    rw [requestOpenAI2Ollama_eq_foldl, foldl_system_of_no_system _ _ hnone]

/-- Witness of C3: the system field is the content of the second of two system messages, and it
is empty for a request without a system message. -/
theorem requestOpenAI2Ollama_system_last_system_witness :
    (requestOpenAI2Ollama
          { Model := "llama2"
            Messages :=
              [⟨"system", "be brief"⟩, ⟨"user", "first"⟩, ⟨"system", "be kind"⟩, ⟨"user", "second"⟩]
            Prompt := .null
            Stream := false }).System = "be kind" ∧
      (requestOpenAI2Ollama
          { Model := "llama2"
            Messages := [⟨"user", "first"⟩]
            Prompt := .null
            Stream := false }).System = "" :=
  ⟨(requestOpenAI2Ollama_system_last_system _).1 [⟨"system", "be brief"⟩, ⟨"user", "first"⟩]
      [⟨"user", "second"⟩] ⟨"system", "be kind"⟩ rfl rfl (by decide),
    (requestOpenAI2Ollama_system_last_system _).2 (by decide)⟩

/-! ## Finish reason and usage -/

/-- C4: both transformers produce exactly one choice; when the unit's done flag is true its finish
reason is "stop" in both, and when the flag is false the single-shot choice has the empty finish
reason and the stream choice has none (an unset pointer). -/
theorem finishReason_stop_iff_done (now : Int) (unit : OllamaChatResponse) :
    (unit.Done = true →
        (responseOllama2OpenAI now unit).Choices.map (fun choice => choice.FinishReason) =
            ["stop"] ∧
          (streamResponseOllama2OpenAI now unit).Choices.map (fun choice => choice.FinishReason) =
            [some "stop"]) ∧
      (unit.Done = false →
        (responseOllama2OpenAI now unit).Choices.map (fun choice => choice.FinishReason) = [""] ∧
          (streamResponseOllama2OpenAI now unit).Choices.map (fun choice => choice.FinishReason) =
            [none]) := by
  constructor
  · intro h
    simp [responseOllama2OpenAI, streamResponseOllama2OpenAI, stopFinishReason, h]
  · intro h
    simp [responseOllama2OpenAI, streamResponseOllama2OpenAI, h]

/-- Witness of C4: the unit of the line with `"done":true` and the unit of the line without. -/
theorem finishReason_stop_iff_done_witness :
    ((responseOllama2OpenAI 0 unitLo).Choices.map (fun choice => choice.FinishReason) = ["stop"] ∧
        (streamResponseOllama2OpenAI 0 unitLo).Choices.map (fun choice => choice.FinishReason) =
          [some "stop"]) ∧
      ((responseOllama2OpenAI 0 unitHel).Choices.map (fun choice => choice.FinishReason) = [""] ∧
        (streamResponseOllama2OpenAI 0 unitHel).Choices.map (fun choice => choice.FinishReason) =
          [none]) :=
  ⟨(finishReason_stop_iff_done 0 unitLo).1 rfl, (finishReason_stop_iff_done 0 unitHel).2 rfl⟩

/-! ## Single-shot Handler: the four ways it returns -/

/-- The handler on a body whose read fails. -/
theorem ollamaHandler_of_read_failed (env : Env) (c : Context) (resp : Response) (e : String)
    (hr : resp.Body.readErr = some e) :
    ollamaHandler env c resp =
      { err := some (errorWrapper e "read_response_body_failed" StatusInternalServerError)
        usage := none
        c := c
        body := resp.Body } := by
  simp [ollamaHandler, ioReadAll, hr]

/-- The handler on a body that is read to its end and then fails to close. -/
theorem ollamaHandler_of_close_failed (env : Env) (c : Context) (resp : Response) (e : String)
    (hr : resp.Body.readErr = none) (hc : resp.Body.closeErr = some e) :
    ollamaHandler env c resp =
      { err := some (errorWrapper e "close_response_body_failed" StatusInternalServerError)
        usage := none
        c := c
        body := { resp.Body with closeCalls := resp.Body.closeCalls + 1 } } := by
  simp [ollamaHandler, ioReadAll, Body.Close, hr, hc]

/-- The handler on a body that is read and closed and does not decode. -/
theorem ollamaHandler_of_decode_failed (env : Env) (c : Context) (resp : Response) (e : String)
    (hr : resp.Body.readErr = none) (hc : resp.Body.closeErr = none)
    (hu : env.unmarshal resp.Body.data = .error e) :
    ollamaHandler env c resp =
      { err := some (errorWrapper e "unmarshal_response_body_failed" StatusInternalServerError)
        usage := none
        c := c
        body := { resp.Body with closeCalls := resp.Body.closeCalls + 1 } } := by
  simp [ollamaHandler, ioReadAll, Body.Close, hr, hc, hu]

/-- The handler on a body that is read and closed and decodes to `unit`. -/
theorem ollamaHandler_of_decoded (env : Env) (c : Context) (resp : Response)
    (unit : OllamaChatResponse)
    (hr : resp.Body.readErr = none) (hc : resp.Body.closeErr = none)
    (hu : env.unmarshal resp.Body.data = .ok unit) :
    ollamaHandler env c resp =
      { err := none
        usage := some (responseOllama2OpenAI (env.timestamp 0) unit).Usage
        c :=
          ((c.setHeader "Content-Type" "application/json").WriteHeader resp.StatusCode).Write
            (env.encodeText (responseOllama2OpenAI (env.timestamp 0) unit))
        body := { resp.Body with closeCalls := resp.Body.closeCalls + 1 } } := by
  simp [ollamaHandler, ioReadAll, Body.Close, jsonMarshal, hr, hc, hu]

/-- Counterexample to C7: the unit of the line with `"prompt_eval_count":3,"eval_count":5`
carries counters, the specification asks for the usage 3, 5, 8, and the response transformer
produces, and the single-shot handler returns, the usage 0, 0, 0. -/
theorem responseOllama2OpenAI_usage_ignores_counters :
    unitLo.PromptEvalCount = 3 ∧ unitLo.EvalCount = 5 ∧
      claimedUsage unitLo = { PromptTokens := 3, CompletionTokens := 5, TotalTokens := 8 } ∧
      (responseOllama2OpenAI 0 unitLo).Usage =
        { PromptTokens := 0, CompletionTokens := 0, TotalTokens := 0 } ∧
      (ollamaHandler sampleEnv freshContext (okResponse lineLo)).usage =
        some { PromptTokens := 0, CompletionTokens := 0, TotalTokens := 0 } ∧
      (responseOllama2OpenAI 0 unitLo).Usage ≠ claimedUsage unitLo := by
  decide

/-- C7 as amended: the usage of the response produced by `responseOllama2OpenAI` is zero for
every unit, whatever counters the unit carries, and whenever `ollamaHandler` returns without
error the usage it returns is that zero usage. -/
theorem responseOllama2OpenAI_usage_zero (now : Int) (unit : OllamaChatResponse) :
    (responseOllama2OpenAI now unit).Usage =
        { PromptTokens := 0, CompletionTokens := 0, TotalTokens := 0 } ∧
      ∀ (env : Env) (c : Context) (resp : Response),
        (ollamaHandler env c resp).err = none →
          (ollamaHandler env c resp).usage =
            some { PromptTokens := 0, CompletionTokens := 0, TotalTokens := 0 } := by
  refine ⟨rfl, ?_⟩
  intro env c resp
  cases hr : resp.Body.readErr with
  | some e => simp [ollamaHandler_of_read_failed env c resp e hr]
  | none =>
    cases hc : resp.Body.closeErr with
    | some e => simp [ollamaHandler_of_close_failed env c resp e hr hc]
    | none =>
      cases hu : env.unmarshal resp.Body.data with
      | error e => simp [ollamaHandler_of_decode_failed env c resp e hr hc hu]
      | ok u =>
        intro _
        rw [ollamaHandler_of_decoded env c resp u hr hc hu]
        rfl

/-- C6: `ollamaHandler` is all-or-nothing. A failed read gives `read_response_body_failed`; after
a successful read a failed close gives `close_response_body_failed`; after both, a body that
does not decode gives `unmarshal_response_body_failed`; each comes with status 500 and a nil
usage and leaves the gin context untouched (no header, status or body byte written). Otherwise
the body decodes to a unit, and the handler returns no error after one `Write` of the encoding
of `responseOllama2OpenAI` of that unit, with the upstream status code as the status and the
JSON content type as the only header set. -/
theorem ollamaHandler_all_or_nothing (env : Env) (c : Context) (resp : Response) :
    (∀ e, resp.Body.readErr = some e →
        (ollamaHandler env c resp).err =
            some { Message := e, Code := "read_response_body_failed", StatusCode := 500 } ∧
          (ollamaHandler env c resp).usage = none ∧ (ollamaHandler env c resp).c = c) ∧
      (∀ e, resp.Body.readErr = none → resp.Body.closeErr = some e →
        (ollamaHandler env c resp).err =
            some { Message := e, Code := "close_response_body_failed", StatusCode := 500 } ∧
          (ollamaHandler env c resp).usage = none ∧ (ollamaHandler env c resp).c = c) ∧
      (∀ e, resp.Body.readErr = none → resp.Body.closeErr = none →
        env.unmarshal resp.Body.data = .error e →
        (ollamaHandler env c resp).err =
            some { Message := e, Code := "unmarshal_response_body_failed", StatusCode := 500 } ∧
          (ollamaHandler env c resp).usage = none ∧ (ollamaHandler env c resp).c = c) ∧
      (∀ unit, resp.Body.readErr = none → resp.Body.closeErr = none →
        env.unmarshal resp.Body.data = .ok unit →
        (ollamaHandler env c resp).err = none ∧
          (ollamaHandler env c resp).c.written =
            c.written ++ [env.encodeText (responseOllama2OpenAI (env.timestamp 0) unit)] ∧
          (ollamaHandler env c resp).c.status = some resp.StatusCode ∧
          (ollamaHandler env c resp).c.headers =
            c.headers.filter (fun kv => kv.1 ≠ "Content-Type") ++
              [("Content-Type", "application/json")] ∧
          (ollamaHandler env c resp).c.events = c.events) := by
  refine ⟨?_, ?_, ?_, ?_⟩
  · intro e hr
    rw [ollamaHandler_of_read_failed env c resp e hr]
    exact ⟨rfl, rfl, rfl⟩
  · intro e hr hc
    rw [ollamaHandler_of_close_failed env c resp e hr hc]
    exact ⟨rfl, rfl, rfl⟩
  · intro e hr hc hu
    rw [ollamaHandler_of_decode_failed env c resp e hr hc hu]
    exact ⟨rfl, rfl, rfl⟩
  · intro unit hr hc hu
    rw [ollamaHandler_of_decoded env c resp unit hr hc hu]
    exact ⟨rfl, rfl, rfl, rfl, rfl⟩

/-- Witness of C6: a body whose read fails, a body whose close fails, a body that is not JSON,
and a body that decodes, each on a fresh gin context. -/
theorem ollamaHandler_all_or_nothing_witness :
    ollamaHandler sampleEnv freshContext (readFailing lineLo) =
        { err := some ⟨"unexpected EOF", "read_response_body_failed", 500⟩
          usage := none
          c := freshContext
          body := (readFailing lineLo).Body } ∧
      ((ollamaHandler sampleEnv freshContext (closeFailing lineLo)).err =
          some ⟨"close failed", "close_response_body_failed", 500⟩ ∧
        (ollamaHandler sampleEnv freshContext (closeFailing lineLo)).usage = none ∧
        (ollamaHandler sampleEnv freshContext (closeFailing lineLo)).c = freshContext) ∧
      ((ollamaHandler sampleEnv freshContext (okResponse lineNotJson)).err =
          some ⟨"invalid character", "unmarshal_response_body_failed", 500⟩ ∧
        (ollamaHandler sampleEnv freshContext (okResponse lineNotJson)).usage = none ∧
        (ollamaHandler sampleEnv freshContext (okResponse lineNotJson)).c = freshContext) ∧
      ((ollamaHandler sampleEnv freshContext (okResponse lineLo)).err = none ∧
        (ollamaHandler sampleEnv freshContext (okResponse lineLo)).c.written =
          ["id= object=chat.completion choices=[role=assistant content=lo finish_reason=stop]"] ∧
        (ollamaHandler sampleEnv freshContext (okResponse lineLo)).c.status = some 200) :=
  ⟨by decide,
    (ollamaHandler_all_or_nothing sampleEnv freshContext (closeFailing lineLo)).2.1 "close failed"
      rfl rfl,
    (ollamaHandler_all_or_nothing sampleEnv freshContext (okResponse lineNotJson)).2.2.1
      "invalid character" rfl rfl rfl,
    by
      have h :=
        (ollamaHandler_all_or_nothing sampleEnv freshContext (okResponse lineLo)).2.2.2 unitLo
          rfl rfl rfl
      exact ⟨h.1, by rw [h.2.1]; decide, h.2.2.1⟩⟩

/-! ## Release of the upstream body by the single-shot handler -/

/-- After a successful read the single-shot handler has called `Close` exactly once when it
returns, whether the close fails, the body does not decode, or the response is written. -/
theorem ollamaHandler_closes_once_after_read (env : Env) (c : Context) (resp : Response)
    (hr : resp.Body.readErr = none) :
    (ollamaHandler env c resp).body.closeCalls = resp.Body.closeCalls + 1 := by
  cases hc : resp.Body.closeErr with
  | some e => rw [ollamaHandler_of_close_failed env c resp e hr hc]
  | none =>
    cases hu : env.unmarshal resp.Body.data with
    | error e => rw [ollamaHandler_of_decode_failed env c resp e hr hc hu]
    | ok u => rw [ollamaHandler_of_decoded env c resp u hr hc hu]

/-- C10, the failing exit path: on a body whose read fails, `ollamaHandler` returns
`read_response_body_failed` and the body's `Close` has been called zero times, not once. -/
theorem ollamaHandler_read_failure_leaves_body_open :
    (ollamaHandler sampleEnv freshContext (readFailing lineLo)).err =
        some ⟨"unexpected EOF", "read_response_body_failed", 500⟩ ∧
      (readFailing lineLo).Body.closeCalls = 0 ∧
      (ollamaHandler sampleEnv freshContext (readFailing lineLo)).body.closeCalls = 0 := by
  decide

/-! ## The line scanner -/

theorem stringsIndex_of_not_mem (l : Bytes) (sep : Byte) (h : sep ∉ l) :
    stringsIndex l sep = none := by
  induction l with
  | nil => rfl
  | cons b rest ih =>
    have hb : b ≠ sep := fun hb => h (hb ▸ List.mem_cons_self b rest)
    have hrest : sep ∉ rest := fun hr => h (List.mem_cons_of_mem b hr)
    simp [stringsIndex, hb, ih hrest]

theorem stringsIndex_append_sep (l r : Bytes) (sep : Byte) (h : sep ∉ l) :
    stringsIndex (l ++ sep :: r) sep = some l.length := by
  induction l with
  | nil => simp [stringsIndex]
  | cons b rest ih =>
    have hb : b ≠ sep := fun hb => h (hb ▸ List.mem_cons_self b rest)
    have hrest : sep ∉ rest := fun hr => h (List.mem_cons_of_mem b hr)
    simp [stringsIndex, hb, ih hrest]

/-- At the end of an empty input `Scan` returns false. -/
theorem Scan_nil : Scanner.Scan [] = none := by
  decide

/-- A line shorter than the buffer limit that is followed by a terminator is the next token, and
the input after the terminator is left. -/
theorem Scan_line (l r : Bytes) (hl : newline ∉ l) (hlen : l.length < MaxScanTokenSize) :
    Scanner.Scan (l ++ newline :: r) = some (l, r) := by
  obtain ⟨k, hk⟩ : ∃ k, MaxScanTokenSize - l.length = k + 1 :=
    ⟨MaxScanTokenSize - l.length - 1, by omega⟩
  have hbuf : (l ++ newline :: r).take MaxScanTokenSize = l ++ newline :: r.take k := by
    rw [List.take_append_eq_append_take, List.take_of_length_le (Nat.le_of_lt hlen), hk,
      List.take_succ_cons]
  have hidx := stringsIndex_append_sep l (r.take k) newline hl
  unfold Scanner.Scan
  simp only [hbuf, splitFunc, hidx]
  simp

/-- A last line shorter than the buffer limit that the end of input cuts off is the next token,
and nothing is left. -/
theorem Scan_tail (t : Bytes) (hne : t ≠ []) (ht : newline ∉ t)
    (hlen : t.length < MaxScanTokenSize) : Scanner.Scan t = some (t, []) := by
  have hbuf : t.take MaxScanTokenSize = t := List.take_of_length_le (Nat.le_of_lt hlen)
  have hidx := stringsIndex_of_not_mem t newline ht
  unfold Scanner.Scan
  simp only [hbuf, splitFunc, hidx]
  simp [hlen, hne]

/-- A line of at least `MaxScanTokenSize` bytes makes `Scan` return false, whatever follows it:
the buffer is full and holds no terminator. -/
theorem Scan_tooLong (l r : Bytes) (hl : newline ∉ l) (hlen : MaxScanTokenSize ≤ l.length) :
    Scanner.Scan (l ++ r) = none := by
  have hbuf : (l ++ r).take MaxScanTokenSize = l.take MaxScanTokenSize :=
    List.take_append_of_le_length hlen
  have hidx : stringsIndex (l.take MaxScanTokenSize) newline = none :=
    stringsIndex_of_not_mem _ _ (fun h => hl (List.mem_of_mem_take h))
  have hnot : ¬ l.length + r.length < MaxScanTokenSize := by
    omega
  unfold Scanner.Scan
  simp only [hbuf, splitFunc, hidx]
  simp [hnot]

theorem splitFunc_advance_pos (data : Bytes) (atEOF : Bool) (adv : Nat) (t : Bytes)
    (h : splitFunc data atEOF = (adv, some t)) : 0 < adv := by
  unfold splitFunc at h
  cases hidx : stringsIndex data newline with
  | some i =>
    simp only [hidx] at h
    split at h
    · simp at h
    · simp only [Prod.mk.injEq] at h; omega
  | none =>
    simp only [hidx] at h
    cases data with
    | nil => cases atEOF <;> simp at h
    | cons b p =>
      cases atEOF
      · simp at h
      · simp at h; omega

theorem Scan_shrinks (pending tok rest : Bytes) (h : Scanner.Scan pending = some (tok, rest)) :
    rest.length < pending.length := by
  cases pending with
  | nil => rw [Scan_nil] at h; cases h
  | cons b p =>
    unfold Scanner.Scan at h
    cases hs : splitFunc (List.take MaxScanTokenSize (b :: p))
        (decide ((b :: p).length < MaxScanTokenSize)) with
    | mk adv tk =>
      simp only [hs] at h
      cases tk with
      | none => simp at h
      | some t =>
        simp only [Option.some.injEq, Prod.mk.injEq] at h
        have hadv := splitFunc_advance_pos _ _ _ _ hs
        rw [← h.2, List.length_drop, List.length_cons]
        omega

/-- The scanning goroutine ends: with more fuel than pending bytes it sends a sequence of values
on `dataChan` and then one on `stopChan`. -/
theorem scanGoroutine_total (fuel : Nat) (pending : Bytes) (h : pending.length < fuel) :
    ∃ toks : List Bytes, scanGoroutine fuel pending = some (toks.map Msg.dataChan ++ [Msg.stopChan]) := by
  induction fuel generalizing pending with
  | zero => omega
  | succ fuel ih =>
    unfold scanGoroutine
    cases hs : Scanner.Scan pending with
    | none => exact ⟨[], rfl⟩
    | some res =>
      obtain ⟨data, rest⟩ := res
      have hlt := Scan_shrinks pending data rest hs
      obtain ⟨toks, htoks⟩ := ih rest (by omega)
      by_cases h5 : data.length < 5
      · exact ⟨toks, by simp [h5, htoks]⟩
      · exact ⟨data :: toks, by simp [h5, htoks]⟩

theorem linesOf_cons (l : Bytes) (lines : List Bytes) (tail : Bytes) :
    linesOf (l :: lines) tail = l :: linesOf lines tail := by
  unfold linesOf
  split <;> rfl

theorem sentFor_cons_short (l : Bytes) (lines : List Bytes) (h : l.length < 5) :
    sentFor (l :: lines) = sentFor lines := by
  simp [sentFor, List.filter_cons, h]

theorem sentFor_cons_long (l : Bytes) (lines : List Bytes) (h : ¬ l.length < 5) :
    sentFor (l :: lines) = Msg.dataChan l :: sentFor lines := by
  have h5 : 5 ≤ l.length := Nat.le_of_not_lt h
  simp [sentFor, List.filter_cons, h5]

/-- On a stream of lines that are all shorter than the buffer limit, the scanning goroutine sends
every line of at least 5 bytes, in order, and then the stop signal. -/
theorem scanGoroutine_wire (lines : List Bytes) (tail : Bytes) (fuel : Nat)
    (hlines : ∀ l ∈ lines, newline ∉ l ∧ l.length < MaxScanTokenSize)
    (htail : newline ∉ tail) (htlen : tail.length < MaxScanTokenSize)
    (hfuel : (wire lines tail).length < fuel) :
    scanGoroutine fuel (wire lines tail) = some (sentFor (linesOf lines tail)) := by
  induction lines generalizing fuel with
  | nil =>
    simp only [wire] at hfuel ⊢
    obtain ⟨f, rfl⟩ : ∃ f, fuel = f + 1 := ⟨fuel - 1, by omega⟩
    by_cases hne : tail = []
    · subst hne
      simp [scanGoroutine, Scan_nil, linesOf, sentFor]
    · have hpos : 0 < tail.length := List.length_pos.mpr hne
      obtain ⟨g, rfl⟩ : ∃ g, f = g + 1 := ⟨f - 1, by omega⟩
      have hl : linesOf [] tail = [tail] := by simp [linesOf, hne]
      rw [hl]
      unfold scanGoroutine
      simp only [Scan_tail tail hne htail htlen]
      have hnil : scanGoroutine (g + 1) [] = some (sentFor []) := by
        simp [scanGoroutine, Scan_nil, sentFor]
      by_cases h5 : tail.length < 5
      · simp only [h5, if_true, hnil, sentFor_cons_short tail _ h5]
      · simp only [h5, if_false, hnil, sentFor_cons_long tail _ h5, Option.map_some']
  | cons l ls ih =>
    have hl := hlines l (List.mem_cons_self l ls)
    have hls : ∀ x ∈ ls, newline ∉ x ∧ x.length < MaxScanTokenSize :=
      fun x hx => hlines x (List.mem_cons_of_mem l hx)
    simp only [wire, List.length_append, List.length_cons] at hfuel
    obtain ⟨f, rfl⟩ : ∃ f, fuel = f + 1 := ⟨fuel - 1, by omega⟩
    rw [linesOf_cons]
    simp only [wire]
    unfold scanGoroutine
    simp only [Scan_line l (wire ls tail) hl.1 hl.2]
    have hrec := ih f hls (by omega)
    by_cases h5 : l.length < 5
    · simp only [h5, if_true, hrec, sentFor_cons_short l _ h5]
    · simp only [h5, if_false, hrec, sentFor_cons_long l _ h5, Option.map_some']

/-! ## The emitting loop -/

/-- The emitting closure keeps the stream open after every value received on `dataChan`. -/
theorem streamStep_dataChan (env : Env) (id : String) (st : RelayState) (data : Bytes) :
    streamStep env id st (Msg.dataChan data) = (relayData env id st data, true) := by
  cases h : env.unmarshal data <;> simp [relayData, streamStep, jsonMarshal, h]

/-- The emitting loop on the values of the scanning goroutine: it handles every line received and
returns after the stop signal. -/
theorem ginStream_sent (env : Env) (id : String) (toks : List Bytes) (st : RelayState)
    (k : Nat) :
    ginStream connected (streamStep env id) k st (toks.map Msg.dataChan ++ [Msg.stopChan]) =
      some (relayStop (toks.foldl (relayData env id) st)) := by
  induction toks generalizing st k with
  | nil => simp [ginStream, connected, streamStep, relayStop]
  | cons t ts ih =>
    simp only [List.map_cons, List.cons_append, List.foldl_cons]
    unfold ginStream
    rw [streamStep_dataChan]
    simp only [connected, Bool.false_eq_true, if_false]
    exact ih _ _

/-- The emitting loop returns on the values of the scanning goroutine, whatever the client
does. -/
theorem ginStream_total (clientGone : Nat → Bool) (env : Env) (id : String) (toks : List Bytes)
    (st : RelayState) (k : Nat) :
    ∃ fin,
      ginStream clientGone (streamStep env id) k st (toks.map Msg.dataChan ++ [Msg.stopChan]) =
        some fin := by
  induction toks generalizing st k with
  | nil =>
    by_cases hg : clientGone k = true
    · exact ⟨st, by simp [ginStream, hg]⟩
    · exact ⟨relayStop st, by simp [ginStream, hg, streamStep, relayStop]⟩
  | cons t ts ih =>
    simp only [List.map_cons, List.cons_append]
    unfold ginStream
    by_cases hg : clientGone k = true
    · exact ⟨st, by simp [hg]⟩
    · rw [streamStep_dataChan]
      simp only [hg, if_false]
      exact ih _ _

/-- The state after a line that does not decode: only the log grows. -/
theorem relayData_of_error (env : Env) (id : String) (st : RelayState) (data : Bytes) (e : String)
    (h : env.unmarshal data = .error e) :
    relayData env id st data =
      { st with sysLog := st.sysLog ++ ["error unmarshalling stream response: " ++ e] } := by
  simp [relayData, streamStep, h]

/-- The state after a line that decodes to `unit`: one more timestamp taken, the fragment
appended to the text, one event rendered. -/
theorem relayData_of_ok (env : Env) (id : String) (st : RelayState) (data : Bytes)
    (unit : OllamaChatResponse) (h : env.unmarshal data = .ok unit) :
    relayData env id st data =
      { st with
        calls := st.calls + 1
        responseText := st.responseText ++ unit.Response
        c := st.c.Render
          ("data: " ++
            env.encodeChunk
              { streamResponseOllama2OpenAI (env.timestamp st.calls) unit with Id := id }) } := by
  simp [relayData, streamStep, h, jsonMarshal, streamResponseOllama2OpenAI]

theorem foldl_append_string (acc : String) (xs : List String) :
    xs.foldl (fun r s => r ++ s) acc = acc ++ xs.foldl (fun r s => r ++ s) "" := by
  induction xs generalizing acc with
  | nil => simp
  | cons x xs ih =>
    rw [List.foldl_cons, List.foldl_cons, ih (acc ++ x), ih ("" ++ x), String.append_assoc]
    simp

theorem String_join_cons (x : String) (xs : List String) :
    String.join (x :: xs) = x ++ String.join xs := by
  unfold String.join
  rw [List.foldl_cons, foldl_append_string]
  simp

/-- What the emitting closure has done after the lines of at least 5 bytes among `lines`: the
events, the text, the timestamps taken, and nothing else on the gin context. -/
theorem foldl_relayData (env : Env) (lines : List Bytes) (st : RelayState) :
    let fin := (lines.filter (fun line => ¬ line.length < 5)).foldl (relayData env env.uuid) st
    fin.c.events =
        st.c.events ++ ((validUnits env lines).enumFrom st.calls).map
          (fun p => chunkEvent env p.1 p.2) ∧
      fin.responseText =
        st.responseText ++ String.join ((validUnits env lines).map (fun unit => unit.Response)) ∧
      fin.calls = st.calls + (validUnits env lines).length ∧
      fin.c.headers = st.c.headers ∧ fin.c.status = st.c.status ∧
      fin.c.written = st.c.written := by
  induction lines generalizing st with
  | nil => simp [validUnits, String.join]
  | cons l ls ih =>
    by_cases h5 : l.length < 5
    · have hv : validUnits env (l :: ls) = validUnits env ls := by
        simp [validUnits, validUnit, h5]
      simp only [List.filter_cons, h5, not_true_eq_false, decide_False, hv]
      exact ih st
    · have h5' : 5 ≤ l.length := Nat.le_of_not_lt h5
      simp only [List.filter_cons, h5, not_false_eq_true, decide_True, if_true, List.foldl_cons]
      cases hu : env.unmarshal l with
      | error e =>
        have hv : validUnits env (l :: ls) = validUnits env ls := by
          simp [validUnits, validUnit, h5, hu]
        rw [hv, relayData_of_error env _ st l e hu]
        exact ih _
      | ok unit =>
        have hv : validUnits env (l :: ls) = unit :: validUnits env ls := by
          simp [validUnits, validUnit, h5, hu]
        rw [hv, relayData_of_ok env _ st l unit hu]
        have := ih
          { st with
            calls := st.calls + 1
            responseText := st.responseText ++ unit.Response
            c := st.c.Render
              ("data: " ++
                env.encodeChunk
                  { streamResponseOllama2OpenAI (env.timestamp st.calls) unit with
                    Id := env.uuid }) }
        simp only [Context.Render] at this ⊢
        obtain ⟨h1, h2, h3, h4, h5, h6⟩ := this
        refine ⟨?_, ?_, ?_, h4, h5, h6⟩
        · rw [h1]; simp [chunkEvent]
        · rw [h2, List.map_cons, String_join_cons, String.append_assoc]
        · rw [h3, List.length_cons]; omega

/-! ## Streaming Relay Engine: what the handler returns -/

/-- The handler, once the values sent by the scanning goroutine and the state in which the
emitting loop ends are known. -/
theorem ollamaStreamHandler_of_fin (clientGone : Nat → Bool) (env : Env) (c : Context)
    (resp : Response) (sent : List Msg) (fin : RelayState)
    (hsent : scanGoroutine (resp.Body.data.length + 1) resp.Body.data = some sent)
    (hfin : ginStream clientGone (streamStep env env.uuid) 0 (relayStart c) sent = some fin) :
    ollamaStreamHandler clientGone env c resp = some (closeAndReturn resp.Body fin) := by
  unfold ollamaStreamHandler
  simp only [hsent]
  unfold relayStart at hfin
  simp only [hfin]
  unfold closeAndReturn Body.Close
  cases hc : resp.Body.closeErr <;> simp

/-- The handler for a client that stays connected, once the values sent by the scanning
goroutine are known. -/
theorem ollamaStreamHandler_of_sent (env : Env) (c : Context) (resp : Response)
    (toks : List Bytes)
    (h : scanGoroutine (resp.Body.data.length + 1) resp.Body.data =
      some (toks.map Msg.dataChan ++ [Msg.stopChan])) :
    ollamaStreamHandler connected env c resp =
      some (closeAndReturn resp.Body
        (relayStop (toks.foldl (relayData env env.uuid) (relayStart c)))) :=
  ollamaStreamHandler_of_fin connected env c resp _ _ h
    (ginStream_sent env env.uuid toks (relayStart c) 0)

/-- The streaming handler returns on every upstream body and for every client: the scanning
goroutine ends, the emitting loop ends, and the body is closed. -/
theorem ollamaStreamHandler_returns_any (clientGone : Nat → Bool) (env : Env) (c : Context)
    (resp : Response) :
    ∃ fin, ollamaStreamHandler clientGone env c resp = some (closeAndReturn resp.Body fin) := by
  obtain ⟨toks, h⟩ := scanGoroutine_total (resp.Body.data.length + 1) resp.Body.data
    (Nat.lt_succ_self _)
  obtain ⟨fin, hfin⟩ := ginStream_total clientGone env env.uuid toks (relayStart c) 0
  exact ⟨fin, ollamaStreamHandler_of_fin clientGone env c resp _ fin h hfin⟩

/-- The streaming handler returns on every upstream body for a client that stays connected: the
scanning goroutine ends, the emitting loop receives the stop signal, and the body is closed. -/
theorem ollamaStreamHandler_returns (env : Env) (c : Context) (resp : Response) :
    ∃ toks : List Bytes,
      ollamaStreamHandler connected env c resp =
        some (closeAndReturn resp.Body
          (relayStop (toks.foldl (relayData env env.uuid) (relayStart c)))) := by
  obtain ⟨toks, h⟩ := scanGoroutine_total (resp.Body.data.length + 1) resp.Body.data
    (Nat.lt_succ_self _)
  exact ⟨toks, ollamaStreamHandler_of_sent env c resp toks h⟩

/-- The handler on a stream of lines that are all shorter than the buffer limit, for a client
that stays connected. -/
theorem ollamaStreamHandler_wire (env : Env) (c : Context) (resp : Response)
    (lines : List Bytes) (tail : Bytes)
    (hdata : resp.Body.data = wire lines tail)
    (hlines : ∀ l ∈ lines, newline ∉ l ∧ l.length < MaxScanTokenSize)
    (htail : newline ∉ tail) (htlen : tail.length < MaxScanTokenSize) :
    ollamaStreamHandler connected env c resp =
      some (closeAndReturn resp.Body
        (relayStop
          (((linesOf lines tail).filter (fun line => ¬ line.length < 5)).foldl
            (relayData env env.uuid) (relayStart c)))) := by
  apply ollamaStreamHandler_of_sent
  rw [hdata]
  exact scanGoroutine_wire lines tail _ hlines htail htlen (Nat.lt_succ_self _)

/-- The streaming handler has called `Close` exactly once when it returns, on every upstream
body and for every client, whether or not the close fails. -/
theorem ollamaStreamHandler_closes_once (clientGone : Nat → Bool) (env : Env) (c : Context)
    (resp : Response) :
    ∃ out, ollamaStreamHandler clientGone env c resp = some out ∧
      out.body.closeCalls = resp.Body.closeCalls + 1 := by
  obtain ⟨fin, h⟩ := ollamaStreamHandler_returns_any clientGone env c resp
  exact ⟨_, h, rfl⟩

/-- C1 as amended: for every upstream stream made of lines that are each shorter than 65536
bytes (each followed by a terminator, and possibly a last line cut off by the end of input),
and a client that stays connected and so accepts every write, the handler returns after
emitting, in input order, exactly one chunk event for each line that
has at least 5 bytes and decodes, and then exactly one `data: [DONE]`; shorter lines and lines
that fail to decode emit nothing and stop nothing, and neither does a line whose done flag is
true. -/
theorem ollamaStreamHandler_events (env : Env) (c : Context) (resp : Response)
    (lines : List Bytes) (tail : Bytes)
    (hdata : resp.Body.data = wire lines tail)
    (hlines : ∀ l ∈ lines, newline ∉ l ∧ l.length < MaxScanTokenSize)
    (htail : newline ∉ tail) (htlen : tail.length < MaxScanTokenSize) :
    ∃ out, ollamaStreamHandler connected env c resp = some out ∧
      out.c.events = c.events ++ claimedEvents env (linesOf lines tail) := by
  refine ⟨_, ollamaStreamHandler_wire env c resp lines tail hdata hlines htail htlen, ?_⟩
  have h := (foldl_relayData env (linesOf lines tail) (relayStart c)).1
  simp only [closeAndReturn, relayStop, Context.Render, claimedEvents, List.enum]
  rw [h]
  simp [relayStart, setEventStreamHeaders, Context.setHeader]

/-- C5 as amended: for every upstream stream made of lines that are each shorter than 65536
bytes and every client that stays connected (its close notification never fires), when the
body closes without error the handler returns no error and the text it returns is the
concatenation, in input order, of the response fragments of the lines that have at least 5
bytes and decode; the other lines contribute nothing. -/
theorem ollamaStreamHandler_text (clientGone : Nat → Bool) (env : Env) (c : Context)
    (resp : Response) (lines : List Bytes) (tail : Bytes)
    (hconn : ∀ k, clientGone k = false)
    (hdata : resp.Body.data = wire lines tail)
    (hlines : ∀ l ∈ lines, newline ∉ l ∧ l.length < MaxScanTokenSize)
    (htail : newline ∉ tail) (htlen : tail.length < MaxScanTokenSize)
    (hclose : resp.Body.closeErr = none) :
    ∃ out, ollamaStreamHandler clientGone env c resp = some out ∧ out.err = none ∧
      out.text = claimedText env (linesOf lines tail) := by
  obtain rfl : clientGone = connected := funext hconn
  refine ⟨_, ollamaStreamHandler_wire env c resp lines tail hdata hlines htail htlen, ?_, ?_⟩
  · simp [closeAndReturn, hclose]
  · have h := (foldl_relayData env (linesOf lines tail) (relayStart c)).2.1
    simp only [closeAndReturn, relayStop, claimedText, hclose]
    simp only [Option.isSome_none, Bool.false_eq_true, if_false]
    rw [h]
    simp [relayStart]

/-- C8 as amended: on every upstream body and for every client, when closing the body fails the
handler returns the `close_response_body_failed` error with status 500 together with the empty
text, not the text accumulated from the decoded lines. -/
theorem ollamaStreamHandler_close_failed (clientGone : Nat → Bool) (env : Env) (c : Context)
    (resp : Response) (e : String) (hclose : resp.Body.closeErr = some e) :
    ∃ out, ollamaStreamHandler clientGone env c resp = some out ∧
      out.err = some { Message := e, Code := "close_response_body_failed", StatusCode := 500 } ∧
      out.text = "" := by
  obtain ⟨fin, h⟩ := ollamaStreamHandler_returns_any clientGone env c resp
  refine ⟨_, h, ?_, ?_⟩
  · simp [closeAndReturn, hclose, errorWrapper, StatusInternalServerError]
  · simp [closeAndReturn, hclose]

/-- C9 as amended: whenever the handler returns an error to a client that stays connected, the
events it has emitted end with `data: [DONE]`: its only error is the failed close, which comes
after the emitting loop has rendered the sentinel. -/
theorem ollamaStreamHandler_error_after_done (env : Env) (c : Context) (resp : Response)
    (out : StreamOutcome) (hout : ollamaStreamHandler connected env c resp = some out)
    (herr : out.err ≠ none) :
    ∃ earlier, out.c.events = earlier ++ ["data: [DONE]"] ∧
      out.err.map (fun err => err.Code) = some "close_response_body_failed" := by
  obtain ⟨toks, h⟩ := ollamaStreamHandler_returns env c resp
  rw [h] at hout
  cases hout
  refine ⟨_, rfl, ?_⟩
  cases hc : resp.Body.closeErr with
  | none => simp [closeAndReturn, hc] at herr
  | some e => simp [closeAndReturn, hc, errorWrapper]

/-! ## Concrete runs -/

theorem lineLong_length : lineLong.length = MaxScanTokenSize :=
  List.length_replicate _ _

theorem newline_not_mem_lineLong : newline ∉ lineLong := by
  intro h
  have := List.eq_of_mem_replicate h
  exact absurd this (by decide)

/-- The long line is none of the lines the sample decoder accepts. -/
theorem sampleUnmarshal_lineLong : sampleUnmarshal lineLong = .error "invalid character" := by
  have h1 : lineLong ≠ lineHel := by
    intro h
    have := congrArg List.length h
    rw [lineLong_length] at this
    exact absurd this (by decide)
  have h2 : lineLong ≠ lineLo := by
    intro h
    have := congrArg List.length h
    rw [lineLong_length] at this
    exact absurd this (by decide)
  simp [sampleUnmarshal, h1, h2]

/-- The valid units of the stream that starts with the long line: the unit of the second line. -/
theorem validUnits_lineLong : validUnits sampleEnv [lineLong, lineHel] = [unitHel] := by
  have hlong : validUnit sampleEnv lineLong = none := by
    unfold validUnit
    rw [lineLong_length]
    have : sampleEnv.unmarshal lineLong = .error "invalid character" := sampleUnmarshal_lineLong
    rw [this]
    decide
  have hhel : validUnit sampleEnv lineHel = some unitHel := by decide
  simp [validUnits, List.filterMap_cons, hlong, hhel]

theorem wire_cons (l : Bytes) (lines : List Bytes) (tail : Bytes) :
    wire (l :: lines) tail = l ++ newline :: wire lines tail :=
  rfl

theorem okResponse_data (data : Bytes) : (okResponse data).Body.data = data :=
  rfl

/-- The handler on a stream that starts with a line of at least `MaxScanTokenSize` bytes: the
scanner stops at that line, so the emitting loop receives the stop signal only, whatever
follows the line. -/
theorem ollamaStreamHandler_tooLong (env : Env) (c : Context) (resp : Response)
    (long rest : Bytes) (hdata : resp.Body.data = long ++ rest)
    (hl : newline ∉ long) (hlen : MaxScanTokenSize ≤ long.length) :
    ollamaStreamHandler connected env c resp =
      some (closeAndReturn resp.Body (relayStop (relayStart c))) := by
  apply ollamaStreamHandler_of_sent env c resp []
  rw [hdata]
  unfold scanGoroutine
  rw [Scan_tooLong long rest hl hlen]
  rfl

/-- The run of the handler on the stream of the long line followed by a valid line. -/
theorem ollamaStreamHandler_lineLong :
    ollamaStreamHandler connected sampleEnv freshContext (okResponse (wire [lineLong, lineHel] [])) =
      some (closeAndReturn (okResponse (wire [lineLong, lineHel] [])).Body
        (relayStop (relayStart freshContext))) :=
  ollamaStreamHandler_tooLong sampleEnv freshContext _ lineLong (newline :: wire [lineHel] [])
    (by rw [okResponse_data, wire_cons]) newline_not_mem_lineLong
    (Nat.le_of_eq lineLong_length.symm)

/-- Counterexample to C1: the upstream sends a line of 65536 letters x and then the valid line
`\x7b"response":"Hel"\x7d`. The specification asks for the chunk event of the second line
followed by `data: [DONE]`; the handler emits `data: [DONE]` alone, because the scanner stops
at the first line. -/
theorem ollamaStreamHandler_events_long_line :
    (ollamaStreamHandler connected sampleEnv freshContext
          (okResponse (wire [lineLong, lineHel] []))).map (fun out => out.c.events) =
        some ["data: [DONE]"] ∧
      claimedEvents sampleEnv [lineLong, lineHel] =
        ["data: id=chatcmpl-1 object=chat.completion.chunk model= choices=[content=Hel finish_reason=null]",
          "data: [DONE]"] := by
  constructor
  · rw [ollamaStreamHandler_lineLong]
    rfl
  · unfold claimedEvents
    rw [validUnits_lineLong]
    decide

/-- Witness of C1 as amended: the stream of the lines `\x7b"response":"Hel"\x7d`, `not json`, an
empty line and `\x7b"response":"lo","done":true,...\x7d` gives two chunk events and one
`data: [DONE]`. -/
theorem ollamaStreamHandler_events_witness :
    ∃ out,
      ollamaStreamHandler connected sampleEnv freshContext
          (okResponse (wire [lineHel, lineNotJson, [], lineLo] [])) = some out ∧
        out.c.events =
          ["data: id=chatcmpl-1 object=chat.completion.chunk model= choices=[content=Hel finish_reason=null]",
            "data: id=chatcmpl-1 object=chat.completion.chunk model= choices=[content=lo finish_reason=stop]",
            "data: [DONE]"] :=
  (ollamaStreamHandler_events sampleEnv freshContext
      (okResponse (wire [lineHel, lineNotJson, [], lineLo] [])) [lineHel, lineNotJson, [], lineLo] []
      rfl (by decide) (by decide) (by decide)).imp
    fun _ h => ⟨h.1, h.2.trans (by decide)⟩

/-- Counterexample to C5, in two runs whose body closes without error. On the stream of a line
of 65536 letters x followed by the valid line `\x7b"response":"Hel"\x7d`, sent to a client that
stays connected, the specification asks for the text "Hel" and the handler returns no error
and the empty text. On the stream of the two valid lines with the fragments "Hel" and "lo",
sent to a client that leaves during the first call of the step function, the specification
asks for the text "Hello" and the handler returns no error and the text "Hel". -/
theorem ollamaStreamHandler_text_falls_short :
    ((ollamaStreamHandler connected sampleEnv freshContext
            (okResponse (wire [lineLong, lineHel] []))).map (fun out => (out.err, out.text)) =
          some (none, "") ∧
        claimedText sampleEnv [lineLong, lineHel] = "Hel") ∧
      ((ollamaStreamHandler (leavesAt 1) sampleEnv freshContext
            (okResponse (wire [lineHel, lineLo] []))).map (fun out => (out.err, out.text)) =
          some (none, "Hel") ∧
        claimedText sampleEnv [lineHel, lineLo] = "Hello") := by
  refine ⟨⟨?_, ?_⟩, by decide⟩
  · rw [ollamaStreamHandler_lineLong]
    rfl
  · unfold claimedText
    rw [validUnits_lineLong]
    decide

/-- Witness of C5 as amended: the stream of the lines `\x7b"response":"Hel"\x7d`, `not json`, an
empty line and `\x7b"response":"lo","done":true,...\x7d` gives the text "Hello". -/
theorem ollamaStreamHandler_text_witness :
    ∃ out,
      ollamaStreamHandler connected sampleEnv freshContext
          (okResponse (wire [lineHel, lineNotJson, [], lineLo] [])) = some out ∧
        out.err = none ∧ out.text = "Hello" :=
  (ollamaStreamHandler_text connected sampleEnv freshContext
      (okResponse (wire [lineHel, lineNotJson, [], lineLo] [])) [lineHel, lineNotJson, [], lineLo] []
      (fun _ => rfl) rfl (by decide) (by decide) (by decide) rfl).imp
    fun _ h => ⟨h.1, h.2.1, h.2.2.trans (by decide)⟩

/-- Counterexample to C8: on the stream of the two valid lines with the fragments "Hel" and "lo",
whose body fails to close, the text accumulated from the decoded lines is "Hello" and the
handler returns the close error together with the empty text. -/
theorem ollamaStreamHandler_close_failed_drops_text :
    (ollamaStreamHandler connected sampleEnv freshContext
          (closeFailing (wire [lineHel, lineLo] []))).map (fun out => (out.err, out.text)) =
        some (some ⟨"close failed", "close_response_body_failed", 500⟩, "") ∧
      (ollamaStreamHandler connected sampleEnv freshContext
          (okResponse (wire [lineHel, lineLo] []))).map (fun out => (out.err, out.text)) =
        some (none, "Hello") ∧
      claimedText sampleEnv [lineHel, lineLo] = "Hello" := by
  decide

/-- Witness of C8 as amended: the body of the two valid lines that fails to close. -/
theorem ollamaStreamHandler_close_failed_witness :
    ∃ out,
      ollamaStreamHandler connected sampleEnv freshContext (closeFailing (wire [lineHel, lineLo] [])) =
          some out ∧
        out.err = some ⟨"close failed", "close_response_body_failed", 500⟩ ∧ out.text = "" :=
  ollamaStreamHandler_close_failed connected sampleEnv freshContext
    (closeFailing (wire [lineHel, lineLo] [])) "close failed" rfl

/-- Counterexample to C9: on the stream of the valid line with the fragment "Hel", whose body
fails to close, the handler returns the close error and the events it has emitted are the
chunk event followed by `data: [DONE]`. -/
theorem ollamaStreamHandler_error_with_done :
    (ollamaStreamHandler connected sampleEnv freshContext
          (closeFailing (wire [lineHel] []))).map (fun out => (out.err, out.c.events)) =
      some (some ⟨"close failed", "close_response_body_failed", 500⟩,
        ["data: id=chatcmpl-1 object=chat.completion.chunk model= choices=[content=Hel finish_reason=null]",
          "data: [DONE]"]) := by
  decide

/-- Witness of C9 as amended: the body of one valid line that fails to close. -/
theorem ollamaStreamHandler_error_after_done_witness :
    ∃ out earlier,
      ollamaStreamHandler connected sampleEnv freshContext (closeFailing (wire [lineHel] [])) = some out ∧
        out.c.events = earlier ++ ["data: [DONE]"] ∧
        out.err.map (fun err => err.Code) = some "close_response_body_failed" := by
  obtain ⟨toks, h⟩ :=
    ollamaStreamHandler_returns sampleEnv freshContext (closeFailing (wire [lineHel] []))
  obtain ⟨earlier, h1, h2⟩ :=
    ollamaStreamHandler_error_after_done sampleEnv freshContext
      (closeFailing (wire [lineHel] [])) _ h (by simp [closeAndReturn, closeFailing])
  exact ⟨_, earlier, h, h1, h2⟩

/-- Every byte stream is the wire form of some lines without terminator inside, so the theorems
about `wire lines tail` speak of every upstream body. -/
theorem exists_wire (data : Bytes) :
    ∃ lines tail, data = wire lines tail ∧ (∀ l ∈ lines, newline ∉ l) ∧ newline ∉ tail := by
  induction data with
  | nil => exact ⟨[], [], rfl, by simp, by simp⟩
  | cons b d ih =>
    obtain ⟨lines, tail, hd, hl, ht⟩ := ih
    by_cases hb : b = newline
    · refine ⟨[] :: lines, tail, ?_, ?_, ht⟩
      · rw [wire_cons, hd, hb]; rfl
      · intro l hmem
        rcases List.mem_cons.mp hmem with h | h
        · rw [h]; simp
        · exact hl l h
    · cases lines with
      | nil =>
        refine ⟨[], b :: tail, ?_, by simp, ?_⟩
        · rw [hd]; rfl
        · intro hmem
          rcases List.mem_cons.mp hmem with h | h
          · exact hb h.symm
          · exact ht h
      | cons l ls =>
        refine ⟨(b :: l) :: ls, tail, ?_, ?_, ht⟩
        · rw [hd]; rfl
        · intro x hmem
          rcases List.mem_cons.mp hmem with h | h
          · rw [h]
            intro hx
            rcases List.mem_cons.mp hx with h' | h'
            · exact hb h'.symm
            · exact hl l (List.mem_cons_self l ls) h'
          · exact hl x (List.mem_cons_of_mem l h)

/-! ## Supplements -/

/-- A message list that contains a message with the given role splits at the last such
message. -/
theorem exists_last_with_role (msgs : List Message) (role : String)
    (h : ∃ m ∈ msgs, m.Role = role) :
    ∃ before m after, msgs = before ++ m :: after ∧ m.Role = role ∧
      ∀ x ∈ after, x.Role ≠ role := by
  induction msgs with
  | nil =>
    obtain ⟨m, hm, _⟩ := h
    cases hm
  | cons x xs ih =>
    by_cases hxs : ∃ m ∈ xs, m.Role = role
    · obtain ⟨before, m, after, hsplit, hm, hafter⟩ := ih hxs
      exact ⟨x :: before, m, after, by rw [hsplit]; rfl, hm, hafter⟩
    · obtain ⟨m, hm, hrole⟩ := h
      rcases List.mem_cons.mp hm with hmx | hmxs
      · refine ⟨[], x, xs, rfl, hmx ▸ hrole, ?_⟩
        intro y hy hyrole
        exact hxs ⟨y, hy, hyrole⟩
      · exact absurd ⟨m, hmxs, hrole⟩ hxs

/-- The events the specification asks for are one per valid unit and one more. -/
theorem claimedEvents_length (env : Env) (lines : List Bytes) :
    (claimedEvents env lines).length = (validUnits env lines).length + 1 := by
  simp [claimedEvents, List.enum]

end Ollama
